import Mathlib

/-!
Verification of the crate-digger-cpp decoders and index layer.

Byte buffers are modelled as `List Nat`; machine bytes are read through
`byteAt`, which reduces modulo 256 exactly as `uint8_t` access does in the
C++ sources.  Each definition below is translated from a named function of
the repository (file and function are given in its doc comment).
-/

namespace CrateDigger

/-- `uint8_t` access `data[i]` on a byte buffer (out of range reads 0,
which the C++ bounds checks make unreachable on the paths modelled). -/
def byteAt (data : List Nat) (i : Nat) : Nat := data.getD i 0 % 256

/-- `read_u16_le` from `src/core/rekordbox_pdb.cpp`. -/
def readU16le (data : List Nat) (i : Nat) : Nat :=
  byteAt data i + 256 * byteAt data (i + 1)

/-- `read_u32_le` from `src/core/rekordbox_pdb.cpp`. -/
def readU32le (data : List Nat) (i : Nat) : Nat :=
  byteAt data i + 256 * byteAt data (i + 1) + 65536 * byteAt data (i + 2) +
    16777216 * byteAt data (i + 3)

/-- `read_u16_be` from `src/core/rekordbox_anlz.cpp`. -/
def readU16be (data : List Nat) (i : Nat) : Nat :=
  256 * byteAt data i + byteAt data (i + 1)

/-- `read_u32_be` from `src/core/rekordbox_anlz.cpp`. -/
def readU32be (data : List Nat) (i : Nat) : Nat :=
  16777216 * byteAt data i + 65536 * byteAt data (i + 1) +
    256 * byteAt data (i + 2) + byteAt data (i + 3)

/-- UTF-8 encoding of one code unit, as done inline by both transcoders in
the sources (`parse_device_sql_string`, `parse_utf16be_string`). -/
def utf8Encode (ch : Nat) : List Nat :=
  if ch < 0x80 then [ch]
  else if ch < 0x800 then [0xC0 ||| (ch >>> 6), 0x80 ||| (ch &&& 0x3F)]
  else [0xE0 ||| (ch >>> 12), 0x80 ||| ((ch >>> 6) &&& 0x3F), 0x80 ||| (ch &&& 0x3F)]

/-- The UTF-16LE transcoding loop of the `0x90` branch of
`parse_device_sql_string` (`src/core/rekordbox_pdb.cpp`): reads code units at
`data[4 + 2*i]` while `i < char_count` (the fuel) and `i*2 + 1 < max_len - 4`,
stopping at a NUL. -/
def utf16leDecodeAux (data : List Nat) (i : Nat) : Nat → List Nat
  | 0 => []
  | fuel + 1 =>
    if i * 2 + 1 < data.length - 4 then
      let ch := readU16le data (4 + i * 2)
      if ch = 0 then [] else utf8Encode ch ++ utf16leDecodeAux data (i + 1) fuel
    else []

/-- `parse_device_sql_string` from `src/core/rekordbox_pdb.cpp`.  The three
shapes are selected by the first byte; the result is the payload byte string. -/
def parse_device_sql_string (data : List Nat) : List Nat :=
  if data.length = 0 then []
  else
    let lengthAndKind := byteAt data 0
    if lengthAndKind = 0x40 then
      -- long ASCII
      if data.length < 4 then []
      else
        let length := readU16le data 1
        if length < 4 ∨ length - 4 > data.length - 4 then []
        else (data.drop 4).take (length - 4)
    else if lengthAndKind = 0x90 then
      -- long UTF-16LE
      if data.length < 4 then []
      else
        let length := readU16le data 1
        if length < 4 then []
        else utf16leDecodeAux data 0 ((length - 4) / 2)
    else
      -- short ASCII
      let length := lengthAndKind >>> 1
      if length = 0 ∨ length > data.length then []
      else (data.drop 1).take (length - 1)

end CrateDigger

namespace CrateDigger

/-- C1 counterexample: the claim's short-ASCII length rule and its
empty-on-overrun rule both fail on the code.
First input: header byte `0x85` is neither `0x40` nor `0x90`; its low 7 bits
shifted right by one give 2, so the claim prescribes the single payload byte
`[0x61]`, yet the decoder uses the full byte shifted right by one (66) and
returns 65 payload bytes.
Second input: shape `0x90` with declared total length 8 but only 6 bytes of
buffer; the claim prescribes the empty string, yet the decoder truncates the
transcoding at the buffer end and returns one character. -/
theorem parse_device_sql_string_claim_counterexample :
    parse_device_sql_string (0x85 :: List.replicate 65 0x61) = List.replicate 65 0x61
    ∧ parse_device_sql_string [0x90, 8, 0, 0, 0x41, 0] = [0x41] := by
  constructor
  · decide
  · decide

/-- C1 amended: for a first byte that is neither `0x40` nor `0x90` the record
length is the WHOLE header byte shifted right by one (not just its low 7
bits), the payload is bytes `1..length-1`, and a length of zero or one running
past the buffer yields the empty string; for the `0x40` long-ASCII shape a
declared length running past the remaining buffer yields the empty string
(the `0x90` shape instead truncates, as the counterexample shows). -/
theorem parse_device_sql_string_amended :
    (∀ b rest, b < 256 → b ≠ 0x40 → b ≠ 0x90 →
      parse_device_sql_string (b :: rest) =
        if b >>> 1 = 0 ∨ b >>> 1 > rest.length + 1 then []
        else rest.take (b >>> 1 - 1))
    ∧ (∀ data, byteAt data 0 = 0x40 → readU16le data 1 > data.length →
      parse_device_sql_string data = []) := by
  constructor
  · intro b rest hb h40 h90
    have hb0 : byteAt (b :: rest) 0 = b := by
      simp [byteAt, Nat.mod_eq_of_lt hb]
    simp only [parse_device_sql_string, List.length_cons, hb0, if_neg h40, if_neg h90]
    simp
  · intro data h40 hlen
    have hne : ¬ data.length = 0 := by
      intro h
      rw [List.length_eq_zero] at h
      subst h
      simp [byteAt] at h40
    simp only [parse_device_sql_string, if_neg hne, h40, if_pos rfl]
    by_cases h4 : data.length < 4
    · simp [h4]
    · have : readU16le data 1 - 4 > data.length - 4 := by omega
      simp [h4, this]

/-- Witness for C1 amended at concrete inputs. -/
theorem parse_device_sql_string_amended_witness :
    parse_device_sql_string [5, 0x61, 0x62, 0x63] = [0x61]
    ∧ parse_device_sql_string [0x40, 10, 0, 0, 0] = [] := by
  constructor
  · have h := parse_device_sql_string_amended.1 5 [0x61, 0x62, 0x63]
      (by decide) (by decide) (by decide)
    rw [h]
    decide
  · exact parse_device_sql_string_amended.2 [0x40, 10, 0, 0, 0] (by decide) (by decide)

end CrateDigger

namespace CrateDigger

/-- The fixed 19-byte base sequence of the song-structure XOR mask
(`parse_song_structure`, `src/core/rekordbox_anlz.cpp`). -/
def maskBase : List Nat :=
  [0xCB, 0xE1, 0xEE, 0xFA, 0xE5, 0xEE, 0xAD, 0xEE, 0xE9, 0xD2, 0xE9, 0xEB,
   0xE1, 0xE9, 0xF3, 0xE8, 0xE9, 0xF4, 0xE1]

/-- Mask key byte `j`: `uint8_t(maskBase[j % 19] + uint8_t(entry_count))`. -/
def maskByte (c j : Nat) : Nat := (maskBase.getD (j % 19) 0 + c % 256) % 256

/-- The in-place unmasking loop `body[i] ^= mask[i % 19]` of
`parse_song_structure`, starting at index `j`. -/
def unmaskFrom (c : Nat) (j : Nat) : List Nat → List Nat
  | [] => []
  | b :: rest => (b ^^^ maskByte c j) :: unmaskFrom c (j + 1) rest

/-- Unmask a whole body. -/
def unmask (c : Nat) (body : List Nat) : List Nat := unmaskFrom c 0 body

/-- `CuePointType` from `include/cratedigger/types.hpp`. -/
inductive CuePointType where
  | Cue
  | FadeIn
  | FadeOut
  | Load
  | Loop
deriving DecidableEq

/-- `parse_cue_type` from `src/core/rekordbox_anlz.cpp` (unknown values fall
back to `Cue`). -/
def parse_cue_type (raw : Nat) : CuePointType :=
  if raw = 0 then .Cue
  else if raw = 1 then .FadeIn
  else if raw = 2 then .FadeOut
  else if raw = 3 then .Load
  else if raw = 4 then .Loop
  else .Cue

/-- `CuePointData` from `include/cratedigger/rekordbox_anlz.hpp`, with the
same default member initialisers (note `is_active` defaults to `true`).
Strings are byte lists. -/
structure CuePointData where
  hot_cue_number : Nat := 0
  type : CuePointType := .Cue
  time_ms : Nat := 0
  loop_time_ms : Nat := 0
  color_id : Nat := 0
  comment : List Nat := []
  is_active : Bool := true
deriving DecidableEq

/-- `parse_utf16be_string` from `src/core/rekordbox_anlz.cpp`, reading
`char_count` (the fuel) big-endian code units from `data` starting at byte
index `start`, stopping at a NUL. -/
def parseUtf16be (data : List Nat) (start : Nat) : Nat → List Nat
  | 0 => []
  | n + 1 =>
    if readU16be data start = 0 then []
    else utf8Encode (readU16be data start) ++ parseUtf16be data (start + 2) n

/-- The standard-format branch of `parse_cue_list`
(`src/core/rekordbox_anlz.cpp`): fields decoded from a `PCPT`/`PCP2` entry at
byte offset `off`; `is_active` is the status word at `+16` compared with 0. -/
def mkStdCue (data : List Nat) (off : Nat) : CuePointData where
  hot_cue_number := readU32be data (off + 12)
  is_active := readU32be data (off + 16) != 0
  type := parse_cue_type (byteAt data (off + 32))
  time_ms := readU32be data (off + 36)
  loop_time_ms := readU32be data (off + 40)
  color_id := 0
  comment := []

/-- The extended-format branch of `parse_cue_list`: adds the colour byte at
`+44` and the optional comment (length word at `+56`, UTF-16BE bytes at
`+60`). -/
def mkExtCue (data : List Nat) (off entryLen : Nat) : CuePointData where
  hot_cue_number := readU32be data (off + 12)
  is_active := readU32be data (off + 16) != 0
  type := parse_cue_type (byteAt data (off + 32))
  time_ms := readU32be data (off + 36)
  loop_time_ms := readU32be data (off + 40)
  color_id := byteAt data (off + 44)
  comment :=
    if entryLen > 60 then
      if 0 < readU32be data (off + 56) ∧ off + 60 + readU32be data (off + 56) ≤ data.length then
        parseUtf16be data (off + 60) (readU32be data (off + 56) / 2)
      else []
    else []

/-- The per-entry decode of `parse_cue_list`: extended layout when the
section is extended and the entry holds the full 64-byte
`RawExtCuePointEntry`, standard layout for entries of at least 44 bytes,
otherwise a default-constructed `CuePointData`. -/
def cueAt (data : List Nat) (isExt : Bool) (off : Nat) : CuePointData :=
  if isExt ∧ 64 ≤ readU32be data (off + 8) then mkExtCue data off (readU32be data (off + 8))
  else if 44 ≤ readU32be data (off + 8) then mkStdCue data off
  else {}

/-- Append a decoded cue only when it is active (`parse_cue_list`:
"Only add active cue points"). -/
def pushActive (acc : List CuePointData) (cue : CuePointData) : List CuePointData :=
  if cue.is_active then acc ++ [cue] else acc

/-- The entry loop of `parse_cue_list` (`src/core/rekordbox_anlz.cpp`): at
most `count` entries, each starting with magic, header length and total
length words; entries with a foreign magic are skipped; a zero or
out-of-bounds entry length stops the loop; a decoded cue is appended only if
`is_active`. -/
def parseCueEntries (data : List Nat) (isExt : Bool) :
    Nat → Nat → List CuePointData → List CuePointData
  | 0, _, acc => acc
  | n + 1, off, acc =>
    if off < data.length then
      if off + 12 ≤ data.length then
        if readU32be data (off + 8) = 0 ∨ data.length < off + readU32be data (off + 8) then acc
        else if readU32be data off ≠ 0x50435054 ∧ readU32be data off ≠ 0x50435032 then
          parseCueEntries data isExt n (off + readU32be data (off + 8)) acc
        else
          parseCueEntries data isExt n (off + readU32be data (off + 8))
            (pushActive acc (cueAt data isExt off))
      else acc
    else acc

/-- The `std::sort` call ending `parse_cue_list`, comparator
`a.time_ms < b.time_ms`, modelled as insertion sort by `time_ms` (same
sorted-by-time result on the same multiset of cues). -/
def insertByTime (a : CuePointData) : List CuePointData → List CuePointData
  | [] => [a]
  | b :: rest => if a.time_ms ≤ b.time_ms then a :: b :: rest else b :: insertByTime a rest

/-- Sort a cue list by ascending `time_ms`. -/
def sortByTime : List CuePointData → List CuePointData
  | [] => []
  | a :: rest => insertByTime a (sortByTime rest)

/-- `RekordboxAnlz::parse_cue_list` from `src/core/rekordbox_anlz.cpp`:
`prev` is the accumulated `cue_points_` vector the call appends to; the whole
vector is sorted by ascending `time_ms` before returning. -/
def parse_cue_list (prev : List CuePointData) (data : List Nat) (isExt : Bool) :
    List CuePointData :=
  if data.length < 4 then prev
  else sortByTime (parseCueEntries data isExt (readU32be data 0) 4 prev)

theorem mem_insertByTime {c a : CuePointData} :
    ∀ l, c ∈ insertByTime a l ↔ c = a ∨ c ∈ l := by
  intro l
  induction l with
  | nil => simp [insertByTime]
  | cons b rest ih =>
    simp only [insertByTime]
    split_ifs
    · simp
    · simp only [List.mem_cons, ih]
      tauto

theorem pairwise_insertByTime {a : CuePointData} :
    ∀ {l}, List.Pairwise (fun x y => x.time_ms ≤ y.time_ms) l →
      List.Pairwise (fun x y => x.time_ms ≤ y.time_ms) (insertByTime a l) := by
  intro l
  induction l with
  | nil =>
    intro _
    simp [insertByTime]
  | cons b rest ih =>
    intro hp
    rcases List.pairwise_cons.mp hp with ⟨hb, hrest⟩
    simp only [insertByTime]
    split_ifs with hle
    · refine List.pairwise_cons.mpr ⟨?_, hp⟩
      intro d hd
      rcases List.mem_cons.mp hd with hd' | hd'
      · subst hd'
        omega
      · have := hb d hd'
        omega
    · refine List.pairwise_cons.mpr ⟨?_, ih hrest⟩
      intro d hd
      rcases (mem_insertByTime rest).mp hd with hd' | hd'
      · subst hd'
        omega
      · exact hb d hd'

theorem mem_sortByTime {c : CuePointData} : ∀ l, c ∈ sortByTime l ↔ c ∈ l := by
  intro l
  induction l with
  | nil => simp [sortByTime]
  | cons b rest ih =>
    simp only [sortByTime, mem_insertByTime, ih, List.mem_cons]

theorem pairwise_sortByTime :
    ∀ l, List.Pairwise (fun x y => x.time_ms ≤ y.time_ms) (sortByTime l) := by
  intro l
  induction l with
  | nil => simp [sortByTime]
  | cons b rest ih => exact pairwise_insertByTime ih

theorem mem_pushActive {c : CuePointData} {acc : List CuePointData} {cue : CuePointData}
    (hacc : ∀ d ∈ acc, d.is_active = true) (hc : c ∈ pushActive acc cue) :
    c.is_active = true := by
  unfold pushActive at hc
  split_ifs at hc with hact
  · rcases List.mem_append.mp hc with hd | hd
    · exact hacc c hd
    · rw [List.mem_singleton.mp hd]
      exact hact
  · exact hacc c hc

theorem parseCueEntries_active (data : List Nat) (isExt : Bool) :
    ∀ (n off : Nat) (acc : List CuePointData),
      (∀ c ∈ acc, c.is_active = true) →
      ∀ c ∈ parseCueEntries data isExt n off acc, c.is_active = true := by
  intro n
  induction n with
  | zero =>
    intro off acc hacc
    simpa [parseCueEntries] using hacc
  | succ n ih =>
    intro off acc hacc c hc
    simp only [parseCueEntries] at hc
    split_ifs at hc
    · exact hacc c hc
    · exact ih _ acc hacc c hc
    · exact ih _ _ (fun d hd => mem_pushActive hacc hd) c hc
    · exact hacc c hc
    · exact hacc c hc

/-- C2 amended: `parse_cue_list` keeps the exposed cue list sorted
non-decreasingly by `time_ms`, and every retained entry has
`is_active = true` — where `is_active` is the entry's status word compared
with zero for entries long enough to decode (at least 44 bytes standard, the
full 64-byte layout extended), but DEFAULTS to `true` for valid-magic entries
too short to decode, which are retained without their status bytes being
read (see the counterexample). -/
theorem parse_cue_list_amended (prev : List CuePointData) (data : List Nat) (isExt : Bool)
    (hs : List.Pairwise (fun a b => a.time_ms ≤ b.time_ms) prev)
    (ha : ∀ c ∈ prev, c.is_active = true) :
    List.Pairwise (fun a b => a.time_ms ≤ b.time_ms) (parse_cue_list prev data isExt)
    ∧ ∀ c ∈ parse_cue_list prev data isExt, c.is_active = true := by
  unfold parse_cue_list
  split_ifs with h
  · exact ⟨hs, ha⟩
  · refine ⟨pairwise_sortByTime _, ?_⟩
    intro c hc
    exact parseCueEntries_active data isExt (readU32be data 0) 4 prev ha c
      ((mem_sortByTime _).mp hc)

/-- A cue section holding one `PCPT` entry of declared length 20 whose status
bytes (entry offset +16) are zero. -/
def cueShortEntryData : List Nat :=
  [0, 0, 0, 1,
   0x50, 0x43, 0x50, 0x54,
   0, 0, 0, 0,
   0, 0, 0, 20,
   0, 0, 0, 0,
   0, 0, 0, 0]

/-- C2 counterexample: the entry of `cueShortEntryData` has status 0, yet it
is retained (as a default-constructed cue with `is_active = true`), because
its declared length 20 is below the decodable layouts and
`CuePointData.is_active` defaults to `true`; the claim requires every
status-0 entry to be dropped. -/
theorem parse_cue_list_claim_counterexample :
    parse_cue_list [] cueShortEntryData false = [({} : CuePointData)]
    ∧ readU32be cueShortEntryData (4 + 16) = 0 := by
  exact ⟨by decide, by decide⟩

/-- A cue section holding one well-formed 44-byte `PCPT` entry with status 1
and `time_ms` 1000. -/
def cueSectionWitnessData : List Nat :=
  [0, 0, 0, 1,
   0x50, 0x43, 0x50, 0x54,
   0, 0, 0, 0,
   0, 0, 0, 44,
   0, 0, 0, 1,
   0, 0, 0, 1,
   0, 0, 0, 0,
   0, 0, 0, 0,
   0, 0, 0, 0,
   0, 0, 3, 232,
   0, 0, 0, 0]

/-- Witness for C2 amended at a concrete cue section. -/
theorem parse_cue_list_amended_witness :
    List.Pairwise (fun a b => a.time_ms ≤ b.time_ms)
      (parse_cue_list [] cueSectionWitnessData false)
    ∧ ∀ c ∈ parse_cue_list [] cueSectionWitnessData false, c.is_active = true :=
  parse_cue_list_amended [] cueSectionWitnessData false (by simp) (by simp)

theorem unmaskFrom_unmaskFrom (c : Nat) :
    ∀ (j : Nat) (body : List Nat), unmaskFrom c j (unmaskFrom c j body) = body := by
  intro j body
  induction body generalizing j with
  | nil => rfl
  | cons b rest ih =>
    simp only [unmaskFrom, Nat.xor_cancel_right, ih]

/-- C9: Song-structure XOR unmasking is an involution: for every entry-count
value `c` and every body byte sequence, applying the repeating 19-byte mask
(key byte `j` is `maskBase[j % 19] + (c % 256)` modulo 256) twice returns the
original byte sequence. -/
theorem unmask_involution (c : Nat) (body : List Nat) :
    unmask c (unmask c body) = body :=
  unmaskFrom_unmaskFrom c 0 body

/-- `PhraseEntry` from `include/cratedigger/types.hpp` (numeric fields as
decoded; the enum casts of the C++ keep the underlying value). -/
structure PhraseEntry where
  index : Nat
  beat : Nat
  kind : Nat
  end_beat : Nat
  k1 : Nat
  k2 : Nat
  k3 : Nat
  has_fill : Bool
  fill_beat : Nat
deriving DecidableEq

/-- `SongStructure` from `include/cratedigger/types.hpp` (`mood` and `bank`
kept as the decoded integers the C++ casts into enums). -/
structure SongStructure where
  mood : Nat
  bank : Nat
  end_beat : Nat
  phrases : List PhraseEntry
deriving DecidableEq

/-- One iteration of the phrase-entry loop of
`RekordboxAnlz::parse_song_structure` (`src/core/rekordbox_anlz.cpp`),
decoding the 24-byte entry at body offset `14 + 24*i`; `end_beat` comes from
the next phrase's start beat (`+26` = next entry's `+2`) or, for the last
phrase, the structure-level end beat `e`. -/
def mkPhrase (body : List Nat) (e total i : Nat) : PhraseEntry where
  index := readU16be body (14 + 24 * i)
  beat := readU16be body (14 + 24 * i + 2)
  kind := readU16be body (14 + 24 * i + 4)
  k1 := byteAt body (14 + 24 * i + 7)
  k2 := byteAt body (14 + 24 * i + 9)
  k3 := byteAt body (14 + 24 * i + 19)
  has_fill := byteAt body (14 + 24 * i + 21) != 0
  fill_beat := readU16be body (14 + 24 * i + 22)
  end_beat :=
    if i + 1 < total ∧ 14 + 24 * i + 48 ≤ body.length then readU16be body (14 + 24 * i + 26)
    else e

/-- The phrase-entry loop of `parse_song_structure`: entries while the
counter is below `entry_count` (the fuel `r`) and the 24-byte entry fits in
the body. -/
def buildPhrases (body : List Nat) (e total : Nat) : Nat → Nat → List PhraseEntry
  | _, 0 => []
  | i, r + 1 =>
    if 14 + 24 * i + 24 ≤ body.length then
      mkPhrase body e total i :: buildPhrases body e total (i + 1) r
    else []

/-- The body of the song-structure section (bytes from offset 6 on),
unmasked exactly when the raw mood word exceeds 20, with the low byte of the
entry count (u16 at +4) feeding the mask. -/
def unmaskedBody (data : List Nat) : List Nat :=
  if readU16be (data.drop 6) 0 > 20 then unmask (readU16be data 4) (data.drop 6)
  else data.drop 6

/-- `RekordboxAnlz::parse_song_structure` from `src/core/rekordbox_anlz.cpp`:
requires 24-byte entries, a nonzero entry count, a body large enough for the
14-byte header plus all entries, and an unmasked mood in 1..3; `none` models
the early `return`s that leave `song_structure_` empty. -/
def parse_song_structure (data : List Nat) : Option SongStructure :=
  if data.length < 6 then none
  else if readU32be data 0 ≠ 24 ∨ readU16be data 4 = 0 then none
  else if data.length - 6 < 14 + readU16be data 4 * 24 then none
  else if readU16be (unmaskedBody data) 0 < 1 ∨ 3 < readU16be (unmaskedBody data) 0 then none
  else some
    { mood := readU16be (unmaskedBody data) 0
      bank := byteAt (unmaskedBody data) 12
      end_beat := readU16be (unmaskedBody data) 8
      phrases := buildPhrases (unmaskedBody data) (readU16be (unmaskedBody data) 8)
        (readU16be data 4) 0 (readU16be data 4) }

theorem unmaskFrom_length (c : Nat) :
    ∀ (j : Nat) (body : List Nat), (unmaskFrom c j body).length = body.length := by
  intro j body
  induction body generalizing j with
  | nil => rfl
  | cons b rest ih => simp [unmaskFrom, ih]

theorem unmaskedBody_length (data : List Nat) :
    (unmaskedBody data).length = data.length - 6 := by
  unfold unmaskedBody
  split_ifs
  · rw [unmask, unmaskFrom_length, List.length_drop]
  · rw [List.length_drop]

theorem buildPhrases_eq (body : List Nat) (e total : Nat) :
    ∀ (r i : Nat), 14 + 24 * (i + r) ≤ body.length →
      buildPhrases body e total i r = (List.range' i r).map (mkPhrase body e total) := by
  intro r
  induction r with
  | zero =>
    intro i _
    simp [buildPhrases]
  | succ r ih =>
    intro i hlen
    have hcond : 14 + 24 * i + 24 ≤ body.length := by omega
    rw [buildPhrases, if_pos hcond, ih (i + 1) (by omega), List.range'_succ]
    simp

/-- C3: whenever `parse_song_structure` succeeds, each phrase's `end_beat`
equals the next phrase's start beat, the last phrase's `end_beat` equals the
structure-level end beat, and that end beat is the u16 read at offset +8 of
the unmasked body. -/
theorem parse_song_structure_phrase_ends (data : List Nat) (s : SongStructure)
    (h : parse_song_structure data = some s) :
    (∀ i (hi : i + 1 < s.phrases.length),
        (s.phrases.get ⟨i, Nat.lt_of_succ_lt hi⟩).end_beat = (s.phrases.get ⟨i + 1, hi⟩).beat)
    ∧ (∀ hne : s.phrases ≠ [], (s.phrases.getLast hne).end_beat = s.end_beat)
    ∧ s.end_beat = readU16be (unmaskedBody data) 8 := by
  unfold parse_song_structure at h
  split_ifs at h with h1 h2 h3 h4
  injection h with h
  subst h
  have htotal : readU16be data 4 ≠ 0 := by
    push_neg at h2
    exact h2.2
  have hblen : 14 + 24 * readU16be data 4 ≤ (unmaskedBody data).length := by
    rw [unmaskedBody_length]
    omega
  have hphrases :
      buildPhrases (unmaskedBody data) (readU16be (unmaskedBody data) 8)
          (readU16be data 4) 0 (readU16be data 4) =
        (List.range' 0 (readU16be data 4)).map
          (mkPhrase (unmaskedBody data) (readU16be (unmaskedBody data) 8) (readU16be data 4)) :=
    buildPhrases_eq _ _ _ _ 0 (by omega)
  refine ⟨?_, ?_, rfl⟩
  · intro i hi
    simp only [List.get_eq_getElem, hphrases, List.getElem_map, List.getElem_range']
    rw [hphrases, List.length_map, List.length_range'] at hi
    simp only [mkPhrase]
    rw [if_pos ⟨by omega, by omega⟩]
    have harith : 14 + 24 * (0 + 1 * i) + 26 = 14 + 24 * (0 + 1 * (i + 1)) + 2 := by ring
    rw [harith]
  · intro hne
    have hval :
        (mkPhrase (unmaskedBody data) (readU16be (unmaskedBody data) 8) (readU16be data 4)
            (0 + 1 * (readU16be data 4 - 1))).end_beat = readU16be (unmaskedBody data) 8 := by
      simp only [mkPhrase]
      rw [if_neg]
      intro hcon
      omega
    rw [List.getLast_eq_getElem]
    simp only [hphrases, List.length_map, List.length_range', List.getElem_map,
      List.getElem_range']
    exact hval

/-- A minimal well-formed unmasked song-structure section: one 24-byte
phrase entry, mood 2, structure end beat 7, phrase start beat 3. -/
def songStructureWitnessData : List Nat :=
  [0, 0, 0, 24, 0, 1] ++
  [0, 2, 0, 0, 0, 0, 0, 0, 0, 7, 0, 0, 0, 0] ++
  ([0, 1, 0, 3, 0, 9] ++ List.replicate 18 0)

/-- The structure `parse_song_structure` decodes from
`songStructureWitnessData`. -/
def songStructureWitness : SongStructure where
  mood := 2
  bank := 0
  end_beat := 7
  phrases := [{ index := 1, beat := 3, kind := 9, end_beat := 7, k1 := 0, k2 := 0, k3 := 0,
                has_fill := false, fill_beat := 0 }]

/-- Witness for C3 at a concrete song-structure section. -/
theorem parse_song_structure_phrase_ends_witness :
    parse_song_structure songStructureWitnessData = some songStructureWitness
    ∧ songStructureWitness.end_beat = readU16be (unmaskedBody songStructureWitnessData) 8 := by
  have h : parse_song_structure songStructureWitnessData = some songStructureWitness := by
    decide
  exact ⟨h,
    (parse_song_structure_phrase_ends songStructureWitnessData songStructureWitness h).2.2⟩

/-- `TrackRow` from `include/cratedigger/types.hpp`, restricted to the
fields the verified queries and indices use; the ids are the `int64_t`
values widened from `uint32_t` (hence non-negative), strings are byte
lists. -/
structure TrackRow where
  id : Nat := 0
  title : List Nat := []
  artist_id : Nat := 0
  composer_id : Nat := 0
  original_artist_id : Nat := 0
  remixer_id : Nat := 0
  album_id : Nat := 0
  genre_id : Nat := 0
  bpm_100x : Nat := 0
  file_path : List Nat := []
deriving DecidableEq

/-- `Database::find_tracks_by_bpm_range` from `src/core/database.cpp`.  The
caller-side `static_cast<uint32_t>(x * 100.0f)` conversion of the float
endpoints happens before the loop; the query itself compares the stored
`bpm_100x` against the integer ×100 endpoints, over the primary index in
iteration order. -/
def find_tracks_by_bpm_range (trackIndex : List (Nat × TrackRow))
    (minBpm100 maxBpm100 : Nat) : List Nat :=
  (trackIndex.filter
    (fun p => decide (minBpm100 ≤ p.2.bpm_100x ∧ p.2.bpm_100x ≤ maxBpm100))).map Prod.fst

/-- C4: for `lo ≤ hi`, a track of the primary index is returned by
`find_tracks_by_bpm_range` exactly when its stored ×100 BPM lies in the
inclusive range (keys of the primary index are distinct, as in a
`std::map`). -/
theorem find_tracks_by_bpm_range_range (trackIndex : List (Nat × TrackRow))
    (minBpm100 maxBpm100 : Nat) (hle : minBpm100 ≤ maxBpm100)
    (hnodup : (trackIndex.map Prod.fst).Nodup) :
    ∀ p ∈ trackIndex,
      p.1 ∈ find_tracks_by_bpm_range trackIndex minBpm100 maxBpm100 ↔
        minBpm100 ≤ p.2.bpm_100x ∧ p.2.bpm_100x ≤ maxBpm100 := by
  intro p hp
  constructor
  · intro hmem
    simp only [find_tracks_by_bpm_range, List.mem_map, List.mem_filter,
      decide_eq_true_eq] at hmem
    obtain ⟨q, ⟨hq, hqr⟩, hpq⟩ := hmem
    have hqp : q = p := List.inj_on_of_nodup_map hnodup hq hp hpq
    rw [hqp] at hqr
    exact hqr
  · intro hr
    simp only [find_tracks_by_bpm_range, List.mem_map, List.mem_filter,
      decide_eq_true_eq]
    exact ⟨p, ⟨hp, hr⟩, rfl⟩

/-- A two-track primary index: BPM 128.50 (12850) and BPM 200.00 (20000). -/
def bpmWitnessIndex : List (Nat × TrackRow) :=
  [(1, { id := 1, bpm_100x := 12850 }), (2, { id := 2, bpm_100x := 20000 })]

/-- Witness for C4 at the spec's BPM-128.50 scenario (range 128.00–129.00,
already ×100). -/
theorem find_tracks_by_bpm_range_range_witness :
    (1 ∈ find_tracks_by_bpm_range bpmWitnessIndex 12800 12900 ↔
      12800 ≤ (12850 : Nat) ∧ (12850 : Nat) ≤ 12900) :=
  find_tracks_by_bpm_range_range bpmWitnessIndex 12800 12900 (by decide) (by decide)
    (1, { id := 1, bpm_100x := 12850 }) (by decide)

/-- `CuePoint` from `include/cratedigger/types.hpp`. -/
structure CuePoint where
  type : CuePointType := .Cue
  time_ms : Nat := 0
  loop_time_ms : Nat := 0
  hot_cue_number : Nat := 0
  color_id : Nat := 0
  comment : List Nat := []
deriving DecidableEq

/-- The `CuePointData` → `CuePoint` conversion loop of
`Database::get_cue_points` (`src/core/database.cpp`); `hot_cue_number` is
narrowed by `static_cast<uint8_t>`. -/
def toCuePoint (d : CuePointData) : CuePoint where
  type := d.type
  time_ms := d.time_ms
  loop_time_ms := d.loop_time_ms
  hot_cue_number := d.hot_cue_number % 256
  color_id := d.color_id
  comment := d.comment

/-- `CuePointManager::get_cue_points` (`src/core/rekordbox_anlz.cpp`):
exact-path lookup in `cue_point_index_`, empty when absent. -/
def manager_get_cue_points (cueIndex : List (List Nat × List CuePointData))
    (path : List Nat) : List CuePointData :=
  match cueIndex.lookup path with
  | some cues => cues
  | none => []

/-- `Database::get_cue_points` (`src/core/database.cpp`). -/
def database_get_cue_points (cueIndex : List (List Nat × List CuePointData))
    (path : List Nat) : List CuePoint :=
  (manager_get_cue_points cueIndex path).map toCuePoint

/-- `Database::get_track` (`src/core/database.cpp`): primary-index lookup. -/
def get_track (trackIndex : List (Nat × TrackRow)) (id : Nat) : Option TrackRow :=
  trackIndex.lookup id

/-- `Database::get_cue_points_for_track` (`src/core/database.cpp`): resolve
the track, bail out to the empty vector on a missing track or empty stored
path, otherwise exact-path cue lookup. -/
def get_cue_points_for_track (trackIndex : List (Nat × TrackRow))
    (cueIndex : List (List Nat × List CuePointData)) (id : Nat) : List CuePoint :=
  match get_track trackIndex id with
  | none => []
  | some t => if t.file_path = [] then [] else database_get_cue_points cueIndex t.file_path

/-- C10: `get_cue_points_for_track` returns the empty vector when the id is
absent from the primary index or the track's stored `file_path` is empty,
and otherwise returns exactly the exact-path cue lookup of that path. -/
theorem get_cue_points_for_track_spec (trackIndex : List (Nat × TrackRow))
    (cueIndex : List (List Nat × List CuePointData)) (id : Nat) :
    (get_track trackIndex id = none → get_cue_points_for_track trackIndex cueIndex id = [])
    ∧ (∀ t, get_track trackIndex id = some t → t.file_path = [] →
        get_cue_points_for_track trackIndex cueIndex id = [])
    ∧ (∀ t, get_track trackIndex id = some t → t.file_path ≠ [] →
        get_cue_points_for_track trackIndex cueIndex id =
          database_get_cue_points cueIndex t.file_path) := by
  refine ⟨?_, ?_, ?_⟩
  · intro h
    simp [get_cue_points_for_track, h]
  · intro t h hp
    simp [get_cue_points_for_track, h, hp]
  · intro t h hp
    simp [get_cue_points_for_track, h, hp]

/-- Witness for C10: a present track with a non-empty path, an absent id,
and a present track with an empty path. -/
theorem get_cue_points_for_track_spec_witness :
    get_cue_points_for_track [(7, { id := 7, file_path := [97] })]
        [([97], [{ time_ms := 5 }])] 7 =
      database_get_cue_points [([97], [{ time_ms := 5 }])] [97]
    ∧ get_cue_points_for_track [(7, { id := 7, file_path := [97] })]
        [([97], [{ time_ms := 5 }])] 9 = []
    ∧ get_cue_points_for_track [(8, { id := 8, file_path := [] })]
        [([97], [{ time_ms := 5 }])] 8 = [] := by
  refine ⟨?_, ?_, ?_⟩
  · exact (get_cue_points_for_track_spec [(7, { id := 7, file_path := [97] })]
      [([97], [{ time_ms := 5 }])] 7).2.2 { id := 7, file_path := [97] }
      (by decide) (by decide)
  · exact (get_cue_points_for_track_spec [(7, { id := 7, file_path := [97] })]
      [([97], [{ time_ms := 5 }])] 9).1 (by decide)
  · exact (get_cue_points_for_track_spec [(8, { id := 8, file_path := [] })]
      [([97], [{ time_ms := 5 }])] 8).2.1 { id := 8, file_path := [] }
      (by decide) (by decide)

/-- `WaveformStyle` from `include/cratedigger/types.hpp`. -/
inductive WaveformStyle where
  | Blue
  | RGB
  | ThreeBand
deriving DecidableEq

/-- `WaveformData` from `include/cratedigger/types.hpp` (raw bytes kept
opaque). -/
structure WaveformData where
  style : WaveformStyle := .Blue
  data : List Nat := []
  entry_count : Nat := 0
  bytes_per_entry : Nat := 1
deriving DecidableEq

/-- The detail-waveform merge step of `CuePointManager::load_anlz_file`
(`src/core/rekordbox_anlz.cpp`): an incoming detail is stored when nothing
is stored yet, or when the stored detail is Blue and the incoming one is
not ("Prefer colored/3-band detail over blue"); otherwise the stored detail
is kept. -/
def merge_detail (existing incoming : Option WaveformData) : Option WaveformData :=
  match incoming with
  | none => existing
  | some nw =>
    match existing with
    | none => some nw
    | some ex => if ex.style = .Blue ∧ nw.style ≠ .Blue then some nw else existing

/-- Quality rank of a stored detail slot (absent < blue < RGB <
three-band). -/
def detailRank : Option WaveformData → Nat
  | none => 0
  | some w =>
    match w.style with
    | .Blue => 1
    | .RGB => 2
    | .ThreeBand => 3

/-- A stored RGB detail waveform. -/
def rgbDetail : WaveformData where
  style := .RGB
  data := [0, 0]
  entry_count := 1
  bytes_per_entry := 2

/-- A contributed three-band detail waveform. -/
def threeBandDetail : WaveformData where
  style := .ThreeBand
  data := [1, 2, 3]
  entry_count := 1
  bytes_per_entry := 3

/-- A contributed blue detail waveform. -/
def blueDetail : WaveformData where
  style := .Blue
  data := [4]
  entry_count := 1
  bytes_per_entry := 1

/-- C5 counterexample: a three-band detail contribution does NOT replace a
previously stored RGB detail — the merge keeps the RGB one, because the
code only upgrades when the stored detail is Blue. -/
theorem merge_detail_claim_counterexample :
    merge_detail (some rgbDetail) (some threeBandDetail) = some rgbDetail
    ∧ rgbDetail ≠ threeBandDetail := by
  exact ⟨by decide, by decide⟩

/-- C5 amended: the merge never lowers the stored quality; a stored non-Blue
detail is never replaced (in particular three-band does not replace RGB); a
non-Blue contribution replaces a stored Blue detail; and a contribution
fills an empty slot. -/
theorem merge_detail_amended :
    ∀ ex nw : Option WaveformData,
      detailRank ex ≤ detailRank (merge_detail ex nw)
      ∧ (∀ e, ex = some e → e.style ≠ .Blue → merge_detail ex nw = ex)
      ∧ (∀ e n, ex = some e → nw = some n → e.style = .Blue → n.style ≠ .Blue →
          merge_detail ex nw = nw)
      ∧ (∀ n, ex = none → nw = some n → merge_detail ex nw = nw) := by
  intro ex nw
  refine ⟨?_, ?_, ?_, ?_⟩
  · cases nw with
    | none => simp [merge_detail]
    | some n =>
      cases ex with
      | none => simp [detailRank]
      | some e =>
        rcases he : e.style <;> rcases hn : n.style <;>
          simp [merge_detail, detailRank, he, hn]
  · intro e hex hstyle
    subst hex
    cases nw with
    | none => rfl
    | some n =>
      simp [merge_detail, hstyle]
  · intro e n hex hnw hblue hnb
    subst hex
    subst hnw
    simp [merge_detail, hblue, hnb]
  · intro n hex hnw
    subst hex
    subst hnw
    rfl

/-- Witness for C5 amended: a non-Blue contribution replaces a stored Blue
detail, and a Blue contribution never replaces a stored RGB detail. -/
theorem merge_detail_amended_witness :
    merge_detail (some blueDetail) (some rgbDetail) = some rgbDetail
    ∧ merge_detail (some rgbDetail) (some blueDetail) = some rgbDetail := by
  refine ⟨?_, ?_⟩
  · exact (merge_detail_amended (some blueDetail) (some rgbDetail)).2.2.1 blueDetail
      rgbDetail rfl rfl (by decide) (by decide)
  · exact (merge_detail_amended (some rgbDetail) (some blueDetail)).2.1 rgbDetail rfl
      (by decide)

/-- `::tolower` on an ASCII byte, as applied by the `std::transform` calls
in `src/core/rekordbox_anlz.cpp`. -/
def toLowerChar (c : Nat) : Nat := if 65 ≤ c ∧ c ≤ 90 then c + 32 else c

/-- Lowercase a byte string. -/
def toLowerStr (s : List Nat) : List Nat := s.map toLowerChar

/-- One entry yielded by `std::filesystem::recursive_directory_iterator`:
its path, the `path().extension()` string, and whether it is a regular
file. -/
structure DirEntry where
  path : List Nat
  extension : List Nat
  isRegularFile : Bool
deriving DecidableEq

/-- The extension filter of `CuePointManager::scan_directory`
(`src/core/rekordbox_anlz.cpp`): the lowercased extension must equal
".dat" or ".ext". -/
def extMatches (e : List Nat) : Bool :=
  toLowerStr e == [46, 100, 97, 116] || toLowerStr e == [46, 101, 120, 116]

/-- `CuePointManager::scan_directory` over the stream of directory entries
(the recursive enumeration itself is `std::filesystem`; the list models its
output): the paths handed to `load_anlz_file`. -/
def scan_directory (entries : List DirEntry) : List (List Nat) :=
  (entries.filter (fun e => e.isRegularFile && extMatches e.extension)).map DirEntry.path

/-- A regular file with extension ".2EX". -/
def twoExEntry : DirEntry where
  path := [97, 46, 50, 69, 88]
  extension := [46, 50, 69, 88]
  isRegularFile := true

/-- C6 counterexample: a regular file whose extension lowercases to ".2ex"
is NOT loaded — the scan only matches ".dat" and ".ext". -/
theorem scan_directory_claim_counterexample :
    scan_directory [twoExEntry] = []
    ∧ toLowerStr twoExEntry.extension = [46, 50, 101, 120] := by
  exact ⟨by decide, by decide⟩

/-- C6 amended: the scan loads exactly the regular files whose extension
matches ".dat" or ".ext" under case-insensitive comparison (".2ex" files
are not loaded). -/
theorem scan_directory_amended (entries : List DirEntry) (p : List Nat) :
    p ∈ scan_directory entries ↔
      ∃ e, e ∈ entries ∧ e.path = p ∧ e.isRegularFile = true ∧
        (toLowerStr e.extension = [46, 100, 97, 116]
          ∨ toLowerStr e.extension = [46, 101, 120, 116]) := by
  simp only [scan_directory, List.mem_map, List.mem_filter, extMatches, Bool.and_eq_true,
    Bool.or_eq_true, beq_iff_eq]
  constructor
  · rintro ⟨e, ⟨he, hreg, hext⟩, hpath⟩
    exact ⟨e, he, hpath, hreg, hext⟩
  · rintro ⟨e, he, hpath, hreg, hext⟩
    exact ⟨e, ⟨he, hreg, hext⟩, hpath⟩

/-- `ErrorCode` from `include/cratedigger/types.hpp`. -/
inductive ErrorCode where
  | Success
  | FileNotFound
  | InvalidFileFormat
  | CorruptedData
  | TableNotFound
  | RowNotFound
  | OutOfMemory
  | IoError
  | InvalidParameter
  | UnknownError
deriving DecidableEq

/-- `PdbTable` from `include/cratedigger/rekordbox_pdb.hpp` (the type word
kept raw; the C++ casts it into `PageType` or `PageTypeExt`). -/
structure PdbTable where
  type_raw : Nat
  empty_candidate : Nat
  first_page_index : Nat
  last_page_index : Nat
deriving DecidableEq

/-- The state of a constructed `RekordboxPdb` handle
(`include/cratedigger/rekordbox_pdb.hpp`). -/
structure PdbState where
  file_data : List Nat
  tables : List PdbTable
  page_size : Nat
  table_count : Nat
  is_ext : Bool
deriving DecidableEq

/-- The table-definition loop of `RekordboxPdb::open`
(`src/core/rekordbox_pdb.cpp`): `table_count` 16-byte descriptors starting
at offset 28; `none` models the `CorruptedData` return when a descriptor
extends past the end of the file. -/
def parseTables (data : List Nat) : Nat → Nat → Option (List PdbTable)
  | 0, _ => some []
  | n + 1, off =>
    if data.length < off + 16 then none
    else
      match parseTables data n (off + 16) with
      | none => none
      | some ts =>
        some ({ type_raw := readU32le data off
                empty_candidate := readU32le data (off + 4)
                first_page_index := readU32le data (off + 8)
                last_page_index := readU32le data (off + 12) } :: ts)

/-- `RekordboxPdb::open` from `src/core/rekordbox_pdb.cpp`, starting from
the fully read file buffer (the `FileNotFound` / `IoError` paths concern the
file-system read and precede the buffer): reject files shorter than 28
bytes, then a page size of 0 or above 65536, then parse the table
descriptors. -/
def pdbOpen (data : List Nat) (isExt : Bool) : Except ErrorCode PdbState :=
  if data.length < 28 then .error .InvalidFileFormat
  else if readU32le data 4 = 0 ∨ 65536 < readU32le data 4 then .error .InvalidFileFormat
  else
    match parseTables data (readU32le data 8) 28 with
    | none => .error .CorruptedData
    | some ts =>
      .ok { file_data := data, tables := ts, page_size := readU32le data 4,
            table_count := readU32le data 8, is_ext := isExt }

/-- A 28-byte header with page size 1 and table count 0. -/
def zeroTablePdbData : List Nat := [0, 0, 0, 0, 1] ++ List.replicate 23 0

/-- C7 counterexample: a file whose declared table count is zero is NOT
rejected — `open` succeeds and constructs a handle with no tables. -/
theorem pdbOpen_claim_counterexample :
    pdbOpen zeroTablePdbData false =
      .ok { file_data := zeroTablePdbData, tables := [], page_size := 1,
            table_count := 0, is_ext := false }
    ∧ readU32le zeroTablePdbData 8 = 0 := by
  exact ⟨rfl, by decide⟩

/-- C7 amended: `open` returns `InvalidFileFormat` (never a handle) for
every input that is empty or has a truncated header (fewer than 28 bytes),
or whose declared page size is 0 or greater than 65536; a zero table count
is accepted. -/
theorem pdbOpen_invalid_format (data : List Nat) (isExt : Bool)
    (h : data.length < 28 ∨ readU32le data 4 = 0 ∨ 65536 < readU32le data 4) :
    pdbOpen data isExt = .error .InvalidFileFormat := by
  unfold pdbOpen
  split_ifs with h1 h2
  · rfl
  · rfl
  · exfalso
    rcases h with h | h
    · exact h1 h
    · exact h2 h

/-- Witness for C7 amended: the empty file. -/
theorem pdbOpen_invalid_format_witness :
    pdbOpen [] false = .error .InvalidFileFormat :=
  pdbOpen_invalid_format [] false (by decide)

/-- Key equivalence of `CaseInsensitiveCompare`
(`src/core/database_util.cpp`): two names fall in the same `std::map` bucket
exactly when their lowercased forms are equal. -/
def ciEq (a b : List Nat) : Bool := toLowerStr a == toLowerStr b

/-- `index[key].insert(value)` on a `std::map` of buckets, with bucket
equivalence `eqk`: append to the first matching bucket, or open a new bucket
keyed by the inserted key. -/
def mmInsertBy {κ : Type} (eqk : κ → κ → Bool) :
    List (κ × List Nat) → κ → Nat → List (κ × List Nat)
  | [], k, v => [(k, [v])]
  | (k0, vs) :: rest, k, v =>
    if eqk k0 k then (k0, vs ++ [v]) :: rest
    else (k0, vs) :: mmInsertBy eqk rest k v

/-- `map[key] = value` on a `std::map` with key equivalence `eqk`:
overwrite the first matching entry, or append a new one. -/
def mapSetBy {κ β : Type} (eqk : κ → κ → Bool) :
    List (κ × β) → κ → β → List (κ × β)
  | [], k, v => [(k, v)]
  | (k0, v0) :: rest, k, v =>
    if eqk k0 k then (k0, v) :: rest
    else (k0, v0) :: mapSetBy eqk rest k v

/-- The secondary indices populated by `DatabaseImpl::index_tracks`
(`src/core/database_util.cpp`), plus the primary track index. -/
structure TrackIndices where
  track_index : List (Nat × TrackRow) := []
  track_title_index : List (List Nat × List Nat) := []
  track_artist_index : List (Nat × List Nat) := []
  track_album_index : List (Nat × List Nat) := []
  track_genre_index : List (Nat × List Nat) := []
deriving DecidableEq

/-- `if (!row.title.empty()) track_title_index[row.title].insert(row.id)`. -/
def addTitleKey (st : TrackIndices) (title : List Nat) (id : Nat) : TrackIndices :=
  if title ≠ [] then
    { st with track_title_index := mmInsertBy ciEq st.track_title_index title id }
  else st

/-- `if (key.value > 0) track_artist_index[key].insert(row.id)` — used for
the artist, composer, original-artist and remixer foreign keys. -/
def addArtistKey (st : TrackIndices) (k id : Nat) : TrackIndices :=
  if 0 < k then
    { st with track_artist_index := mmInsertBy (fun a b => a == b) st.track_artist_index k id }
  else st

/-- `if (row.album_id.value > 0) track_album_index[...].insert(row.id)`. -/
def addAlbumKey (st : TrackIndices) (k id : Nat) : TrackIndices :=
  if 0 < k then
    { st with track_album_index := mmInsertBy (fun a b => a == b) st.track_album_index k id }
  else st

/-- `if (row.genre_id.value > 0) track_genre_index[...].insert(row.id)`. -/
def addGenreKey (st : TrackIndices) (k id : Nat) : TrackIndices :=
  if 0 < k then
    { st with track_genre_index := mmInsertBy (fun a b => a == b) st.track_genre_index k id }
  else st

/-- The per-row body of `DatabaseImpl::index_tracks`
(`src/core/database_util.cpp`): the primary insert followed by the guarded
secondary inserts, in source order. -/
def indexTrackRow (st : TrackIndices) (row : TrackRow) : TrackIndices :=
  addGenreKey
    (addAlbumKey
      (addArtistKey
        (addArtistKey
          (addArtistKey
            (addArtistKey
              (addTitleKey
                { st with track_index := mapSetBy (fun a b => a == b) st.track_index row.id row }
                row.title row.id)
              row.artist_id row.id)
            row.composer_id row.id)
          row.original_artist_id row.id)
        row.remixer_id row.id)
      row.album_id row.id)
    row.genre_id row.id

/-- `DatabaseImpl::index_tracks` over the stream of decoded track rows. -/
def index_tracks (rows : List TrackRow) : TrackIndices :=
  rows.foldl indexTrackRow {}

/-- `DatabaseImpl::index_history_playlists`
(`src/core/database_util.cpp`): for each decoded row (id, name),
`history_playlist_name_index[name] = id` — with NO empty-name guard. -/
def index_history_playlists (rows : List (Nat × List Nat)) : List (List Nat × Nat) :=
  rows.foldl (fun m r => mapSetBy ciEq m r.2 r.1) []

theorem mem_keys_mmInsertBy {κ : Type} {eqk : κ → κ → Bool} {k0 k : κ} {v : Nat} :
    ∀ {idx : List (κ × List Nat)}, k0 ∈ (mmInsertBy eqk idx k v).map Prod.fst →
      k0 ∈ idx.map Prod.fst ∨ k0 = k := by
  intro idx
  induction idx with
  | nil =>
    intro h
    simp only [mmInsertBy, List.map_cons, List.map_nil, List.mem_singleton] at h
    exact Or.inr h
  | cons p rest ih =>
    obtain ⟨k1, vs⟩ := p
    intro h
    simp only [mmInsertBy] at h
    split_ifs at h
    · simp only [List.map_cons, List.mem_cons] at h ⊢
      tauto
    · simp only [List.map_cons, List.mem_cons] at h ⊢
      rcases h with h | h
      · exact Or.inl (Or.inl h)
      · rcases ih h with h' | h'
        · exact Or.inl (Or.inr h')
        · exact Or.inr h'

theorem mem_keys_mapSetBy {κ β : Type} {eqk : κ → κ → Bool} {k0 k : κ} {v : β} :
    ∀ {m : List (κ × β)}, k0 ∈ (mapSetBy eqk m k v).map Prod.fst →
      k0 ∈ m.map Prod.fst ∨ k0 = k := by
  intro m
  induction m with
  | nil =>
    intro h
    simp only [mapSetBy, List.map_cons, List.map_nil, List.mem_singleton] at h
    exact Or.inr h
  | cons p rest ih =>
    obtain ⟨k1, v0⟩ := p
    intro h
    simp only [mapSetBy] at h
    split_ifs at h
    · simp only [List.map_cons, List.mem_cons] at h ⊢
      tauto
    · simp only [List.map_cons, List.mem_cons] at h ⊢
      rcases h with h | h
      · exact Or.inl (Or.inl h)
      · rcases ih h with h' | h'
        · exact Or.inl (Or.inr h')
        · exact Or.inr h'

/-- The key invariant maintained by `index_tracks`: no zero foreign-key
bucket and no empty-title bucket. -/
def GoodKeys (st : TrackIndices) : Prop :=
  (∀ k ∈ st.track_artist_index.map Prod.fst, k ≠ 0)
  ∧ (∀ k ∈ st.track_album_index.map Prod.fst, k ≠ 0)
  ∧ (∀ k ∈ st.track_genre_index.map Prod.fst, k ≠ 0)
  ∧ (∀ n ∈ st.track_title_index.map Prod.fst, n ≠ ([] : List Nat))

theorem addTitleKey_good {st : TrackIndices} {title : List Nat} {id : Nat}
    (h : GoodKeys st) : GoodKeys (addTitleKey st title id) := by
  unfold addTitleKey
  split_ifs with ht
  · refine ⟨h.1, h.2.1, h.2.2.1, ?_⟩
    intro n hn
    rcases mem_keys_mmInsertBy hn with h' | h'
    · exact h.2.2.2 n h'
    · rw [h']
      exact ht
  · exact h

theorem addArtistKey_good {st : TrackIndices} {k id : Nat}
    (h : GoodKeys st) : GoodKeys (addArtistKey st k id) := by
  unfold addArtistKey
  split_ifs with hk
  · refine ⟨?_, h.2.1, h.2.2.1, h.2.2.2⟩
    intro k0 hk0
    rcases mem_keys_mmInsertBy hk0 with h' | h'
    · exact h.1 k0 h'
    · omega
  · exact h

theorem addAlbumKey_good {st : TrackIndices} {k id : Nat}
    (h : GoodKeys st) : GoodKeys (addAlbumKey st k id) := by
  unfold addAlbumKey
  split_ifs with hk
  · refine ⟨h.1, ?_, h.2.2.1, h.2.2.2⟩
    intro k0 hk0
    rcases mem_keys_mmInsertBy hk0 with h' | h'
    · exact h.2.1 k0 h'
    · omega
  · exact h

theorem addGenreKey_good {st : TrackIndices} {k id : Nat}
    (h : GoodKeys st) : GoodKeys (addGenreKey st k id) := by
  unfold addGenreKey
  split_ifs with hk
  · refine ⟨h.1, h.2.1, ?_, h.2.2.2⟩
    intro k0 hk0
    rcases mem_keys_mmInsertBy hk0 with h' | h'
    · exact h.2.2.1 k0 h'
    · omega
  · exact h

theorem indexTrackRow_good {st : TrackIndices} {row : TrackRow}
    (h : GoodKeys st) : GoodKeys (indexTrackRow st row) := by
  unfold indexTrackRow
  have h0 : GoodKeys
      { st with track_index := mapSetBy (fun a b => a == b) st.track_index row.id row } := h
  exact addGenreKey_good (addAlbumKey_good (addArtistKey_good (addArtistKey_good
    (addArtistKey_good (addArtistKey_good (addTitleKey_good h0))))))

theorem index_tracks_foldl_good :
    ∀ (rows : List TrackRow) (st : TrackIndices), GoodKeys st →
      GoodKeys (rows.foldl indexTrackRow st) := by
  intro rows
  induction rows with
  | nil => intro st h; exact h
  | cons r rest ih =>
    intro st h
    exact ih _ (indexTrackRow_good h)

/-- C8 amended: `index_tracks` never inserts a zero foreign-key id as a key
of the artist/album/genre secondary indices and never inserts an empty
title as a key of the title index; the history-playlist name index, in
contrast, inserts every decoded name unconditionally (so an empty history
name yields an empty-string key — see the counterexample), and each of its
keys is some row's name. -/
theorem index_tracks_amended (rows : List TrackRow) (hrows : List (Nat × List Nat)) :
    (∀ k ∈ (index_tracks rows).track_artist_index.map Prod.fst, k ≠ 0)
    ∧ (∀ k ∈ (index_tracks rows).track_album_index.map Prod.fst, k ≠ 0)
    ∧ (∀ k ∈ (index_tracks rows).track_genre_index.map Prod.fst, k ≠ 0)
    ∧ (∀ n ∈ (index_tracks rows).track_title_index.map Prod.fst, n ≠ ([] : List Nat))
    ∧ (∀ n ∈ (index_history_playlists hrows).map Prod.fst, n ∈ hrows.map Prod.snd) := by
  have hmain : GoodKeys (index_tracks rows) :=
    index_tracks_foldl_good rows {} ⟨by simp, by simp, by simp, by simp⟩
  refine ⟨hmain.1, hmain.2.1, hmain.2.2.1, hmain.2.2.2, ?_⟩
  have haux : ∀ (rs : List (Nat × List Nat)) (m : List (List Nat × Nat)),
      ∀ n ∈ (rs.foldl (fun m r => mapSetBy ciEq m r.2 r.1) m).map Prod.fst,
        n ∈ m.map Prod.fst ∨ n ∈ rs.map Prod.snd := by
    intro rs
    induction rs with
    | nil =>
      intro m n hn
      exact Or.inl hn
    | cons r rest ih =>
      intro m n hn
      simp only [List.foldl_cons] at hn
      rcases ih (mapSetBy ciEq m r.2 r.1) n hn with h' | h'
      · rcases mem_keys_mapSetBy h' with h'' | h''
        · exact Or.inl h''
        · right
          simp only [List.map_cons, List.mem_cons]
          exact Or.inl h''
      · right
        simp only [List.map_cons, List.mem_cons]
        exact Or.inr h'
  intro n hn
  rcases haux hrows [] n hn with h' | h'
  · simp at h'
  · exact h'

/-- C8 counterexample: a history playlist whose decoded name is the empty
string puts an empty-string key into the history-playlist name index. -/
theorem index_history_empty_key_counterexample :
    index_history_playlists [(1, [])] = [([], 1)]
    ∧ ([] : List Nat) ∈ (index_history_playlists [(1, [])]).map Prod.fst := by
  exact ⟨rfl, by decide⟩

end CrateDigger
